import Mathlib

/-!
Verification of `sphinx_a4doc/diagram_directive.py` and
`sphinx_a4doc/settings.py` (the sphinx-a4doc railroad-diagram directive glue)
against its natural-language specification.

Shallow embedding conventions:
* Python exceptions become `Except` values; `try/except` becomes matching.
* The a4 Sphinx domain, the diagram engine (`contrib.railroad_diagrams`),
  the grammar model cache (`model.model`) and the AST-to-diagram visitor
  (`model_renderer`) live outside the reviewed sources; they are abstracted
  as parameters, and where a claim depends on their behaviour the definition
  is modelled from the spec and says so in its doc comment.
* Methods that thread object state return the state explicitly.
-/

namespace SphinxA4Doc

/-! ### Settings (`settings.py`) -/

/-- `InternalAlignment` enum from `settings.py`: alignment of nodes within a
single railroad line. -/
inductive InternalAlignment where
  | CENTER
  | LEFT
  | RIGHT
  | AUTO_LEFT
  | AUTO_RIGHT
  deriving DecidableEq, Repr

/-- `EndClass` enum from `settings.py`: style of diagram start/end caps. -/
inductive EndClass where
  | SIMPLE
  | COMPLEX
  deriving DecidableEq, Repr

/-- `DiagramSettings` from `settings.py`: a frozen (immutable) dataclass of
exactly ten fields with the source's defaults. The Python `float` default
`8.4` of `character_advance` is modelled as the rational `42 / 5`; all other
numeric fields are `int` in the source and `Int` here. Lean structures are
immutable, matching `@dataclass(frozen=True)`. -/
structure DiagramSettings where
  padding : Int × Int × Int × Int := (1, 1, 1, 1)
  vertical_separation : Int := 8
  horizontal_separation : Int := 10
  arc_radius : Int := 10
  diagram_class : String := "railroad-diagram"
  translate_half_pixel : Bool := false
  internal_alignment : InternalAlignment := InternalAlignment.AUTO_LEFT
  character_advance : Rat := 42 / 5
  end_class : EndClass := EndClass.SIMPLE
  max_width : Int := 500
  deriving DecidableEq, Repr

/-! ### The a4 domain boundary

`DomainResolver.resolve` calls `domain.resolve_xref` on the `a4` Sphinx
domain.  That domain is part of this project but not among the reviewed
sources, so its observable behaviour is abstracted: for a given grammar and
target it either finds nothing (returns `None`), raises `NoUri`, or resolves
to a rule with a human-readable name and a docutils `reference` node carrying
either a `refuri` or a `refid` attribute. -/

/-- Hyperlink attribute of a resolved docutils `reference` node: exactly one
of `refuri` or `refid` is present. -/
inductive RefAttr where
  | refuri (u : String)
  | refid (i : String)
  deriving DecidableEq, Repr

/-- Observable outcome of the a4 domain looking up one target in one
grammar. -/
inductive XrefOutcome where
  | notFound
  | noUriRaised
  | found (humanName : String) (ref : RefAttr)
  deriving DecidableEq, Repr

/-- The a4 domain, abstracted as a map from (grammar, target) to an
outcome. -/
def Domain : Type := String → String → XrefOutcome

/-- Modelled from the spec: `domain.resolve_xref` of the a4 domain (its module
is not among the reviewed sources).  Per the spec on the resolver protocol,
when the cross-reference is explicit (`refexplicit` true) the content node's
text is kept verbatim as the label; otherwise a successful resolution replaces
the label with the rule's human-readable name.  The `NoUri` exception is the
`Except.error` case; a missing rule is `Except.ok none`. -/
def Domain.resolve_xref (d : Domain) (grammar target : String)
    (refexplicit : Bool) (contText : String) :
    Except Unit (Option (String × RefAttr)) :=
  match d grammar target with
  | XrefOutcome.noUriRaised => Except.error ()
  | XrefOutcome.notFound => Except.ok none
  | XrefOutcome.found humanName ref =>
      Except.ok (some (if refexplicit then contText else humanName, ref))

/-- The parts of the Sphinx builder that `DomainResolver.resolve` reads:
`builder.env.get_domain('a4')` and `builder.current_docname`. -/
structure Builder where
  domain : Domain
  current_docname : String

/-- `DomainResolver` from `diagram_directive.py`: holds the builder and the
current grammar name. -/
structure DomainResolver where
  builder : Builder
  grammar : String

/-- Python `s.rsplit(sep, 1)[-1]`: the part of `s` after the last occurrence
of `sep` (all of `s` when `sep` does not occur). -/
def rsplitLast (s sep : String) : String :=
  (s.splitOn sep).getLastD s

/-- `DomainResolver.resolve` from `diagram_directive.py`, with the resolver
state threaded explicitly (the method body only reads `self.builder` and
`self.grammar`; it assigns no attribute of `self`, so the state out is the
state in).  Mirrors the source: `title = text`; without `href` the target is
`text` and the title is not explicit; with `href` the target is `href` and
the title is explicit unless `title_is_weak`; the content node's text is
`target.rsplit('.', 1)[-1]` when `title_is_weak` else `title`; a `NoUri`
from the domain is caught and `node` set to `None`; `None` yields
`(title, None)`; otherwise the label is the literal's text and the url is
`refuri` when present else `'#' + refid`. -/
def DomainResolver.resolve (self : DomainResolver) (text : String)
    (href : Option String) (title_is_weak : Bool) :
    (String × Option String) × DomainResolver :=
  let title := text
  let target := match href with
    | none => text
    | some h => h
  let explicit_title := match href with
    | none => false
    | some _ => !title_is_weak
  let contText := if title_is_weak then rsplitLast target "." else title
  let node : Option (String × RefAttr) :=
    match self.builder.domain.resolve_xref self.grammar target
        explicit_title contText with
    | Except.error _ => none
    | Except.ok n => n
  match node with
  | none => ((title, none), self)
  | some (label, RefAttr.refuri u) => ((label, some u), self)
  | some (label, RefAttr.refid i) => ((label, some ("#" ++ i)), self)

/-! ### HTML visiting (`RailroadDiagramNode.visit_node_html`) -/

/-- The parts of the Sphinx HTML translator that `visit_node_html` touches:
the output `body` list, plus the logger's record of emitted messages. -/
structure HtmlTranslatorState where
  body : List String
  log : List String
  deriving DecidableEq, Repr

/-- `RailroadDiagramNode.visit_node_html` from `diagram_directive.py`.
`loadRender` abstracts `dia.load(node['diagram'])` followed by
`dia.render(data)` (the diagram engine lives in `contrib.railroad_diagrams`,
outside the reviewed sources): `Except.error e` models those calls raising an
exception with message `e`, `Except.ok svg` models successful rendering.
On an exception the method logs the node's source, a colon, the node's line,
a colon and `' WARNING: '` followed by the exception's message, and appends
nothing to the body; on success it appends the container markup
and the SVG.  `source` and `line` are the node's position. -/
def visit_node_html (loadRender : Except String String)
    (source : String) (line : Nat) (st : HtmlTranslatorState) :
    HtmlTranslatorState :=
  match loadRender with
  | Except.error e =>
      { st with
        log := st.log ++ [source ++ ":" ++ toString line ++ ": WARNING: " ++ e] }
  | Except.ok svg =>
      { st with
        body := st.body ++
          ["<p class=\"railroad-diagram-container\">", svg, "</p>"] }

/-! ### Directives (`RailroadDiagram.run`, `get_content` overrides)

`ModelCache.instance().from_text` and `Renderer().visit` come from
`model.model` / `model.model_renderer`, outside the reviewed sources; they are
abstracted as the parameters `fromText` and `visit`.  `C` is the type of a
rule's AST content, `D` the type of a compiled diagram description. -/

/-- A rule returned by the grammar model's `lookup`: its `content` may be
`None`. -/
structure Rule (C : Type) where
  content : Option C

/-- The grammar model obtained from `ModelCache.instance().from_text`,
abstracted by its `lookup(name)` table. -/
structure Model (C : Type) where
  lookup : String → Option (Rule C)

/-- Nodes a directive's `run` can return: a reporter error node carrying the
message and the directive's line, or a `RailroadDiagramNode` carrying the
diagram content, the settings and the grammar name. -/
inductive DirectiveNode (D : Type) where
  | reporterError (message : String) (line : Nat)
  | diagramNode (diagram : D) (options : DiagramSettings) (grammar : String)
  deriving DecidableEq, Repr

/-- `RailroadDiagram.run` from `diagram_directive.py`: `getContent` abstracts
the `self.get_content()` call, whose exceptions (message `e`) are modelled as
`Except.error e`.  Any exception becomes a single reporter error node with
the directive's `lineno`; success becomes a single `RailroadDiagramNode`. -/
def RailroadDiagram.run {D : Type} (getContent : Except String D)
    (settings : DiagramSettings) (grammar : String) (lineno : Nat) :
    List (DirectiveNode D) :=
  match getContent with
  | Except.error e => [DirectiveNode.reporterError e lineno]
  | Except.ok content => [DirectiveNode.diagramNode content settings grammar]

/-- `LexerRuleDiagram.get_content` from `diagram_directive.py`: joins the
directive body lines, wraps them as `'grammar X; ROOT : ' + raw + ' ;'`,
compiles that text, looks up the rule `'ROOT'`, raises
`RuntimeError('cannot parse the rule')` when the rule or its content is
absent, and otherwise visits the rule's content. -/
def LexerRuleDiagram.get_content {C D : Type} (fromText : String → Model C)
    (visit : C → D) (contentLines : List String) : Except String D :=
  let raw := String.intercalate "\n" contentLines
  let content := "grammar X; ROOT : " ++ raw ++ " ;"
  let model := fromText content
  match model.lookup "ROOT" with
  | none => Except.error "cannot parse the rule"
  | some tree =>
      match tree.content with
      | none => Except.error "cannot parse the rule"
      | some c => Except.ok (visit c)

/-- `ParserRuleDiagram.get_content` from `diagram_directive.py`: same as the
lexer variant but with the synthetic rule `'root'` in
`'grammar X; root : ' + raw + ' ;'`. -/
def ParserRuleDiagram.get_content {C D : Type} (fromText : String → Model C)
    (visit : C → D) (contentLines : List String) : Except String D :=
  let raw := String.intercalate "\n" contentLines
  let content := "grammar X; root : " ++ raw ++ " ;"
  let model := fromText content
  match model.lookup "root" with
  | none => Except.error "cannot parse the rule"
  | some tree =>
      match tree.content with
      | none => Except.error "cannot parse the rule"
      | some c => Except.ok (visit c)

/-! ### Theorems -/

/-- C1: for every `resolve(display_text, explicit_href=None, title_is_weak)`,
if cross-reference resolution of the display text fails (the domain returns
no node or raises `NoUri`), the result is exactly `(display_text, None)`. -/
theorem resolve_no_href_failure (r : DomainResolver) (text : String) (w : Bool)
    (h : r.builder.domain r.grammar text = XrefOutcome.notFound ∨
         r.builder.domain r.grammar text = XrefOutcome.noUriRaised) :
    (r.resolve text none w).1 = (text, none) := by
  rcases h with h | h <;>
    simp [DomainResolver.resolve, Domain.resolve_xref, h]

/-- Witness for C1 at a concrete resolver whose domain finds nothing. -/
theorem resolve_no_href_failure_witness :
    ((DomainResolver.mk
        (Builder.mk (fun _ _ => XrefOutcome.notFound) "doc") "g").resolve
      "expr" none false).1 = ("expr", none) :=
  resolve_no_href_failure
    (DomainResolver.mk (Builder.mk (fun _ _ => XrefOutcome.notFound) "doc") "g")
    "expr" false (Or.inl rfl)

/-- C2: for every `resolve(display_text, explicit_href, title_is_weak=False)`
with the explicit href present, the label component of the result equals the
display text verbatim, whether resolution succeeds or fails. -/
theorem resolve_explicit_href_label_verbatim (r : DomainResolver)
    (text hr : String) :
    ((r.resolve text (some hr) false).1).1 = text := by
  cases hcase : r.builder.domain r.grammar hr with
  | notFound => simp [DomainResolver.resolve, Domain.resolve_xref, hcase]
  | noUriRaised => simp [DomainResolver.resolve, Domain.resolve_xref, hcase]
  | found name ref =>
      cases ref <;> simp [DomainResolver.resolve, Domain.resolve_xref, hcase]

/-- C3: for every `resolve(display_text, explicit_href, title_is_weak=True)`
with the explicit href present, if resolution fails the result is the fallback
`(display_text, None)`. -/
theorem resolve_weak_title_failure (r : DomainResolver) (text hr : String)
    (h : r.builder.domain r.grammar hr = XrefOutcome.notFound ∨
         r.builder.domain r.grammar hr = XrefOutcome.noUriRaised) :
    (r.resolve text (some hr) true).1 = (text, none) := by
  rcases h with h | h <;>
    simp [DomainResolver.resolve, Domain.resolve_xref, h]

/-- Witness for C3 at a concrete resolver whose domain raises `NoUri`. -/
theorem resolve_weak_title_failure_witness :
    ((DomainResolver.mk
        (Builder.mk (fun _ _ => XrefOutcome.noUriRaised) "doc") "g").resolve
      "title" (some "pkg.rule") true).1 = ("title", none) :=
  resolve_weak_title_failure
    (DomainResolver.mk (Builder.mk (fun _ _ => XrefOutcome.noUriRaised) "doc") "g")
    "title" "pkg.rule" (Or.inr rfl)

/-- C4: a `NoUri` raised by the domain is caught inside `resolve` for every
argument combination and mapped to the plain non-linked result
`(display_text, None)` — `resolve` stays total, no exception escapes. -/
theorem resolve_nouri_caught (r : DomainResolver) (text : String)
    (href : Option String) (w : Bool)
    (h : r.builder.domain r.grammar (href.getD text) = XrefOutcome.noUriRaised) :
    (r.resolve text href w).1 = (text, none) := by
  cases href <;>
    simp only [Option.getD_some, Option.getD_none] at h <;>
    simp [DomainResolver.resolve, Domain.resolve_xref, h]

/-- Witness for C4 at a concrete resolver with an explicit href and a weak
title. -/
theorem resolve_nouri_caught_witness :
    ((DomainResolver.mk
        (Builder.mk (fun _ _ => XrefOutcome.noUriRaised) "doc") "g").resolve
      "t" (some "x.y") true).1 = ("t", none) :=
  resolve_nouri_caught
    (DomainResolver.mk (Builder.mk (fun _ _ => XrefOutcome.noUriRaised) "doc") "g")
    "t" (some "x.y") true rfl

/-- C8: every `resolve` call leaves the resolver's own state unchanged: the
`builder` and `grammar` fields after the call are the fields before it, for
all argument combinations (the method only reads them). -/
theorem resolve_preserves_resolver_state (r : DomainResolver) (text : String)
    (href : Option String) (w : Bool) :
    ((r.resolve text href w).2).builder = r.builder ∧
    ((r.resolve text href w).2).grammar = r.grammar := by
  have hself : (r.resolve text href w).2 = r := by
    cases href with
    | none =>
        cases hcase : r.builder.domain r.grammar text with
        | notFound => simp [DomainResolver.resolve, Domain.resolve_xref, hcase]
        | noUriRaised => simp [DomainResolver.resolve, Domain.resolve_xref, hcase]
        | found name ref =>
            cases ref <;> simp [DomainResolver.resolve, Domain.resolve_xref, hcase]
    | some hr =>
        cases hcase : r.builder.domain r.grammar hr with
        | notFound => simp [DomainResolver.resolve, Domain.resolve_xref, hcase]
        | noUriRaised => simp [DomainResolver.resolve, Domain.resolve_xref, hcase]
        | found name ref =>
            cases ref <;> simp [DomainResolver.resolve, Domain.resolve_xref, hcase]
  rw [hself]
  exact ⟨rfl, rfl⟩

/-- C9: whenever the domain resolves the target, `resolve` returns a non-None
url: the reference's `refuri` when that attribute is present, otherwise
`'#'` concatenated with its `refid`. -/
theorem resolve_success_url (r : DomainResolver) (text : String)
    (href : Option String) (w : Bool) (name : String) (ref : RefAttr)
    (h : r.builder.domain r.grammar (href.getD text) =
         XrefOutcome.found name ref) :
    ((r.resolve text href w).1).2 =
      some (match ref with
            | RefAttr.refuri u => u
            | RefAttr.refid i => "#" ++ i) := by
  cases href <;>
    simp only [Option.getD_some, Option.getD_none] at h <;>
    cases ref <;>
    simp [DomainResolver.resolve, Domain.resolve_xref, h]

/-- Witness for C9 at a concrete resolver whose domain resolves to a
reference carrying a `refid`. -/
theorem resolve_success_url_witness :
    ((DomainResolver.mk
        (Builder.mk
          (fun _ _ => XrefOutcome.found "Rule" (RefAttr.refid "r1")) "doc")
        "g").resolve "t" none false).1.2 = some ("#" ++ "r1") :=
  resolve_success_url
    (DomainResolver.mk
      (Builder.mk (fun _ _ => XrefOutcome.found "Rule" (RefAttr.refid "r1")) "doc")
      "g")
    "t" none false "Rule" (RefAttr.refid "r1") rfl

/-- C5: if loading or rendering a diagram raises during HTML visiting, the
exception is caught: the body gains no SVG output, the log gains exactly one
message carrying the node's source location, and `visit_node_html` returns
normally for every input (totality of the embedding — nothing propagates). -/
theorem visit_node_html_catches_all (e source : String) (line : Nat)
    (st : HtmlTranslatorState) :
    (visit_node_html (Except.error e) source line st).body = st.body ∧
    (visit_node_html (Except.error e) source line st).log =
      st.log ++ [source ++ ":" ++ toString line ++ ": WARNING: " ++ e] :=
  ⟨rfl, rfl⟩

/-- C6: when lookup of the synthetic rule yields `None`, or a rule whose
content is `None`, `get_content` fails with `'cannot parse the rule'`, and
`run` turns that exception into a single reporter error node carrying the
directive's line number — no diagram node, no retry.  Stated for both
grammar-rule directives. -/
theorem rule_not_found_surfaces {C D : Type} (fromText : String → Model C)
    (visit : C → D) (lines : List String) (settings : DiagramSettings)
    (grammar : String) (lineno : Nat)
    (hLex :
      (fromText ("grammar X; ROOT : " ++ String.intercalate "\n" lines ++ " ;")).lookup
          "ROOT" = none ∨
      ∃ tree,
        (fromText ("grammar X; ROOT : " ++ String.intercalate "\n" lines ++ " ;")).lookup
            "ROOT" = some tree ∧ tree.content = none)
    (hPar :
      (fromText ("grammar X; root : " ++ String.intercalate "\n" lines ++ " ;")).lookup
          "root" = none ∨
      ∃ tree,
        (fromText ("grammar X; root : " ++ String.intercalate "\n" lines ++ " ;")).lookup
            "root" = some tree ∧ tree.content = none) :
    LexerRuleDiagram.get_content fromText visit lines =
      Except.error "cannot parse the rule" ∧
    ParserRuleDiagram.get_content fromText visit lines =
      Except.error "cannot parse the rule" ∧
    RailroadDiagram.run (LexerRuleDiagram.get_content fromText visit lines)
        settings grammar lineno =
      [DirectiveNode.reporterError "cannot parse the rule" lineno] ∧
    RailroadDiagram.run (ParserRuleDiagram.get_content fromText visit lines)
        settings grammar lineno =
      [DirectiveNode.reporterError "cannot parse the rule" lineno] := by
  have hL : LexerRuleDiagram.get_content fromText visit lines =
      Except.error "cannot parse the rule" := by
    rcases hLex with h | ⟨tree, ht, hc⟩
    · simp [LexerRuleDiagram.get_content, h]
    · simp [LexerRuleDiagram.get_content, ht, hc]
  have hP : ParserRuleDiagram.get_content fromText visit lines =
      Except.error "cannot parse the rule" := by
    rcases hPar with h | ⟨tree, ht, hc⟩
    · simp [ParserRuleDiagram.get_content, h]
    · simp [ParserRuleDiagram.get_content, ht, hc]
  exact ⟨hL, hP, by rw [hL]; rfl, by rw [hP]; rfl⟩

/-- Witness for C6 at a model whose lookup always fails. -/
theorem rule_not_found_surfaces_witness :
    LexerRuleDiagram.get_content
        (fun _ => (Model.mk (fun _ => none) : Model Nat)) (fun c => c) ["A"] =
      Except.error "cannot parse the rule" ∧
    ParserRuleDiagram.get_content
        (fun _ => (Model.mk (fun _ => none) : Model Nat)) (fun c => c) ["A"] =
      Except.error "cannot parse the rule" ∧
    RailroadDiagram.run
        (LexerRuleDiagram.get_content
          (fun _ => (Model.mk (fun _ => none) : Model Nat)) (fun c => c) ["A"])
        {} "__default__" 5 =
      [DirectiveNode.reporterError "cannot parse the rule" 5] ∧
    RailroadDiagram.run
        (ParserRuleDiagram.get_content
          (fun _ => (Model.mk (fun _ => none) : Model Nat)) (fun c => c) ["A"])
        {} "__default__" 5 =
      [DirectiveNode.reporterError "cannot parse the rule" 5] :=
  rule_not_found_surfaces (fun _ => (Model.mk (fun _ => none) : Model Nat))
    (fun c => c) ["A"] {} "__default__" 5 (Or.inl rfl) (Or.inl rfl)

/-- C7: `DiagramSettings` is a flat record determined by exactly its ten
configuration fields — two values agreeing on `padding`,
`vertical_separation`, `horizontal_separation`, `arc_radius`,
`diagram_class`, `translate_half_pixel`, `internal_alignment`,
`character_advance`, `end_class` and `max_width` are equal (no hidden
state) — and the one operation that stores a settings value,
`RailroadDiagram.run`, forwards it into the produced node unmutated.
Mutation is impossible in the embedding: the source dataclass is
`frozen=True` and the Lean structure has no mutating operation. -/
theorem diagram_settings_flat_immutable_record (s t : DiagramSettings)
    (h1 : s.padding = t.padding)
    (h2 : s.vertical_separation = t.vertical_separation)
    (h3 : s.horizontal_separation = t.horizontal_separation)
    (h4 : s.arc_radius = t.arc_radius)
    (h5 : s.diagram_class = t.diagram_class)
    (h6 : s.translate_half_pixel = t.translate_half_pixel)
    (h7 : s.internal_alignment = t.internal_alignment)
    (h8 : s.character_advance = t.character_advance)
    (h9 : s.end_class = t.end_class)
    (h10 : s.max_width = t.max_width) :
    s = t ∧
    ∀ (D : Type) (d : D) (grammar : String) (lineno : Nat),
      RailroadDiagram.run (Except.ok d) s grammar lineno =
        [DirectiveNode.diagramNode d s grammar] := by
  constructor
  · cases s; cases t; simp_all
  · intro D d grammar lineno; rfl

/-- Witness for C7 at the default settings value. -/
theorem diagram_settings_flat_immutable_record_witness :
    ({} : DiagramSettings) = {} ∧
    ∀ (D : Type) (d : D) (grammar : String) (lineno : Nat),
      RailroadDiagram.run (Except.ok d) ({} : DiagramSettings) grammar lineno =
        [DirectiveNode.diagramNode d {} grammar] :=
  diagram_settings_flat_immutable_record {} {}
    rfl rfl rfl rfl rfl rfl rfl rfl rfl rfl

/-- C10: the lexer-rule directive compiles exactly the synthetic grammar
`'grammar X; ROOT : ' + raw + ' ;'` and looks up `'ROOT'`, the parser-rule
directive compiles `'grammar X; root : ' + raw + ' ;'` and looks up
`'root'`, and each resulting diagram is the visit of that single rule's
content alone. -/
theorem synthetic_grammar_exact {C D : Type} (fromText : String → Model C)
    (visit : C → D) (lines : List String) (tree : Rule C) (tc : C) :
    ((fromText ("grammar X; ROOT : " ++ String.intercalate "\n" lines ++ " ;")).lookup
        "ROOT" = some tree →
      tree.content = some tc →
      LexerRuleDiagram.get_content fromText visit lines = Except.ok (visit tc)) ∧
    ((fromText ("grammar X; root : " ++ String.intercalate "\n" lines ++ " ;")).lookup
        "root" = some tree →
      tree.content = some tc →
      ParserRuleDiagram.get_content fromText visit lines = Except.ok (visit tc)) := by
  constructor <;> intro h1 h2 <;>
    simp [LexerRuleDiagram.get_content, ParserRuleDiagram.get_content, h1, h2]

/-- Witness for C10 at a model that resolves every rule name to content `7`,
with the identity visitor. -/
theorem synthetic_grammar_exact_witness :
    LexerRuleDiagram.get_content
        (fun _ => (Model.mk (fun _ => some (Rule.mk (some 7))) : Model Nat))
        (fun c => c) ["A"] = Except.ok 7 ∧
    ParserRuleDiagram.get_content
        (fun _ => (Model.mk (fun _ => some (Rule.mk (some 7))) : Model Nat))
        (fun c => c) ["A"] = Except.ok 7 :=
  ⟨(synthetic_grammar_exact
      (fun _ => (Model.mk (fun _ => some (Rule.mk (some 7))) : Model Nat))
      (fun c => c) ["A"] (Rule.mk (some 7)) 7).1 rfl rfl,
   (synthetic_grammar_exact
      (fun _ => (Model.mk (fun _ => some (Rule.mk (some 7))) : Model Nat))
      (fun c => c) ["A"] (Rule.mk (some 7)) 7).2 rfl rfl⟩

end SphinxA4Doc
